import Mathlib

/-!
Shallow embedding of the library-management application in `src/app.py`
(Flask + SQLAlchemy over SQLite).

The database state is modelled as explicit lists of rows plus autoincrement
counters for the integer primary keys.  Machine integers do not overflow in
the source (Python), so `quantity` is an unbounded `Int` — it is `Int` and
not `Nat` because `int(request.form.get('quantity') or 1)` parses arbitrary
signed decimal input from the form.  Timestamps (`datetime.utcnow()`) are
modelled as an abstract `Nat` value passed in as a `now` parameter.

Each route handler becomes a pure function from its form inputs and the
current database to a result: one constructor per control-flow exit of the
handler (flash + redirect, 404, or an unhandled exception).
-/

/-- Row of the `user` table (`app.py` lines 23-29). -/
structure User where
  id : Nat
  fullname : String
  username : String
  email : String
  password_hash : String
deriving DecidableEq, Repr

/-- Row of the `book` table (`app.py` lines 38-44).  `isbn` is nullable in
the schema, but every row created by the app stores the form string, so the
empty string plays the role of "absent" (the code tests `if isbn`). -/
structure Book where
  id : Nat
  title : String
  author : String
  isbn : String
  quantity : Int
  available : Bool
deriving DecidableEq, Repr

/-- Row of the `borrow` table (`app.py` lines 47-54). -/
structure Borrow where
  id : Nat
  user_id : Nat
  book_id : Nat
  borrowed_at : Nat
  returned_at : Option Nat
deriving DecidableEq, Repr

/-- The persistent store: the three tables plus the autoincrement primary
key counters SQLite maintains for them. -/
structure DB where
  users : List User
  books : List Book
  borrows : List Borrow
  nextUserId : Nat
  nextBookId : Nat
  nextBorrowId : Nat
deriving DecidableEq, Repr

/-- The freshly initialised database (`db.create_all()`). -/
def DB.empty : DB :=
  { users := [], books := [], borrows := [],
    nextUserId := 0, nextBookId := 0, nextBorrowId := 0 }

/-- Lookup `Book.query.get(book_id)` / `get_or_404`: by primary key. -/
def DB.findBook (db : DB) (bid : Nat) : Option Book :=
  db.books.find? (fun b => b.id == bid)

/-- Lookup `Borrow.query.get_or_404(borrow_id)`: by primary key. -/
def DB.findBorrow (db : DB) (rid : Nat) : Option Borrow :=
  db.borrows.find? (fun r => r.id == rid)

/-- In-place mutation of the row with primary key `k`, as SQLAlchemy does
when attributes of a fetched row are assigned and the session committed. -/
def updateWhere {α : Type} (key : α → Nat) (k : Nat) (g : α → α)
    (l : List α) : List α :=
  l.map (fun x => if key x == k then g x else x)

/-- Exits of the `register` handler (`app.py` lines 74-102, POST branch). -/
inductive RegisterResult where
  | mismatch (db : DB)
  | duplicate (db : DB)
  | registered (db : DB)
deriving DecidableEq, Repr

/-- Modelled from the spec: `werkzeug.security.generate_password_hash` is an
external dependency, not code of this repository.  The spec requires only
that the stored value is "a securely hashed password", never the plaintext;
it is modelled as the plaintext behind an algorithm tag, which is never
equal to the plaintext itself. -/
def generate_password_hash (password : String) : String :=
  "pbkdf2:sha256$" ++ password

/-- Handler `register` (`app.py` lines 79-100): reject mismatched confirmation
first, then reject an existing username or email, else insert the user with
the hashed password. -/
def register (fullname username email password confirm : String)
    (db : DB) : RegisterResult :=
  if password != confirm then
    RegisterResult.mismatch db
  else if db.users.any (fun u => u.username == username || u.email == email) then
    RegisterResult.duplicate db
  else
    RegisterResult.registered { db with
      users := db.users ++ [{ id := db.nextUserId, fullname := fullname,
                              username := username, email := email,
                              password_hash := generate_password_hash password }],
      nextUserId := db.nextUserId + 1 }

/-- Exits of the `add_book` handler (`app.py` lines 163-182, POST branch). -/
inductive AddResult where
  | conflict (db : DB)
  | added (db : DB)
deriving DecidableEq, Repr

/-- Handler `add_book` (`app.py` lines 166-181): `quantity` is the value of
`int(request.form.get('quantity') or 1)` — any integer, negative included.
The ISBN conflict check runs only when the form string is non-empty
(`if isbn and Book.query.filter_by(isbn=isbn).first()`). -/
def add_book (title author isbn : String) (quantity : Int)
    (db : DB) : AddResult :=
  if isbn != "" && db.books.any (fun b => b.isbn == isbn) then
    AddResult.conflict db
  else
    AddResult.added { db with
      books := db.books ++ [{ id := db.nextBookId, title := title,
                              author := author, isbn := isbn,
                              quantity := quantity,
                              available := decide (quantity > 0) }],
      nextBookId := db.nextBookId + 1 }

/-- Exits of the `edit_book` handler (`app.py` lines 185-198). -/
inductive EditResult where
  | notFound
  | edited (db : DB)
deriving DecidableEq, Repr

/-- Handler `edit_book` (`app.py` lines 187-197): overwrite every field and
recompute `available = book.quantity > 0`. -/
def edit_book (bid : Nat) (title author isbn : String) (quantity : Int)
    (db : DB) : EditResult :=
  match db.findBook bid with
  | none => EditResult.notFound
  | some _ =>
    EditResult.edited { db with
      books := updateWhere Book.id bid
        (fun b => { b with title := title, author := author, isbn := isbn,
                           quantity := quantity,
                           available := decide (quantity > 0) }) db.books }

/-- Exits of the `delete_book` handler (`app.py` lines 201-208).
`integrityError` is the unhandled `IntegrityError` raised out of
`db.session.commit()`: the request aborts with a 500 and nothing is
committed, so the store is unchanged. -/
inductive DeleteResult where
  | notFound
  | integrityError
  | deleted (db : DB)
deriving DecidableEq, Repr

/-- Handler `delete_book` (`app.py` lines 203-208).  The relationship
`Borrow.book = db.relationship('Book', backref='borrows')` (line 54) gives
`Book` the one-to-many collection `Book.borrows` with the default cascade
(no `delete`, no `passive_deletes`), so on `db.session.delete(book)` the
unit of work loads every `Borrow` row referencing the book and
disassociates it by emitting ``UPDATE borrow SET book_id = NULL``.  Since
`book_id` is declared `nullable=False` (line 50), that update violates the
NOT NULL constraint whenever any such row exists — returned or not — and
the commit raises an unhandled `IntegrityError`: the book is removed only
when no borrow row has ever referenced it. -/
def delete_book (bid : Nat) (db : DB) : DeleteResult :=
  match db.findBook bid with
  | none => DeleteResult.notFound
  | some _ =>
    if db.borrows.any (fun r => r.book_id == bid) then
      DeleteResult.integrityError
    else
      DeleteResult.deleted { db with
        books := db.books.filter (fun b => b.id != bid) }

/-- Exits of the `borrow` handler (`app.py` lines 214-230). -/
inductive BorrowResult where
  | notFound
  | unavailable (db : DB)
  | borrowed (db : DB)
deriving DecidableEq, Repr

/-- Handler `borrow` (`app.py` lines 216-230): reject when `book.quantity <= 0`;
otherwise decrement the quantity, set `available = False` only when the new
quantity is exactly 0 (`if book.quantity == 0`), and insert a `Borrow` row
for the current user with `borrowed_at = now` and `returned_at` null. -/
def borrow (uid bid now : Nat) (db : DB) : BorrowResult :=
  match db.findBook bid with
  | none => BorrowResult.notFound
  | some book =>
    if book.quantity ≤ 0 then
      BorrowResult.unavailable db
    else
      BorrowResult.borrowed { db with
        books := updateWhere Book.id bid
          (fun b => { b with quantity := b.quantity - 1,
                             available := if b.quantity - 1 == 0 then false
                                          else b.available }) db.books,
        borrows := db.borrows ++ [{ id := db.nextBorrowId, user_id := uid,
                                    book_id := bid, borrowed_at := now,
                                    returned_at := none }],
        nextBorrowId := db.nextBorrowId + 1 }

/-- Exits of the `return_book` handler (`app.py` lines 233-247).  `crash`
is the unhandled `AttributeError` raised at line 243 when
`Book.query.get(borrow.book_id)` returned `None` (the book was deleted):
the request aborts with a 500 and the session is not committed, so the
database is unchanged. -/
inductive ReturnResult where
  | notFound
  | alreadyReturned (db : DB)
  | returned (db : DB)
  | crash
deriving DecidableEq, Repr

/-- Handler `return_book` (`app.py` lines 235-247): a 404 when the borrow row is
missing; a flash-and-redirect no-op when `returned_at` is already set;
otherwise stamp `returned_at = now`, re-fetch the book, increment its
quantity and hardcode `available = True`. -/
def return_book (rid now : Nat) (db : DB) : ReturnResult :=
  match db.findBorrow rid with
  | none => ReturnResult.notFound
  | some r =>
    if r.returned_at.isSome then
      ReturnResult.alreadyReturned db
    else
      match db.findBook r.book_id with
      | none => ReturnResult.crash
      | some _ =>
        ReturnResult.returned { db with
          borrows := updateWhere Borrow.id rid
            (fun x => { x with returned_at := some now }) db.borrows,
          books := updateWhere Book.id r.book_id
            (fun b => { b with quantity := b.quantity + 1,
                               available := true }) db.books }

/-!
## The book search (`books` route)

`Book.title.contains(q)` is SQLAlchemy's `ColumnOperators.contains`, which
compiles to ``title LIKE '%' || q || '%'`` with no escaping.  The configured
backend is SQLite (`sqlite:///library.db`), whose default `LIKE` is
case-insensitive for the ASCII letters and gives `%`/`_` in the query their
wildcard meaning.  `likeMatch` is that `LIKE` semantics.
-/

/-- SQLite folds only the ASCII range for its default `LIKE`. -/
def asciiLower (c : Char) : Char :=
  if 'A' ≤ c ∧ c ≤ 'Z' then Char.ofNat (c.toNat + 32) else c

/-- SQLite `LIKE` on character lists: `%` matches any (possibly empty)
sequence — equivalently, the rest of the pattern matches some suffix —
`_` matches exactly one character, and any other pattern character matches
ASCII-case-insensitively. -/
def likeMatch : List Char → List Char → Bool
  | [], s => s.isEmpty
  | p :: ps, s =>
    if p = '%' then
      s.tails.any (fun t => likeMatch ps t)
    else
      match s with
      | [] => false
      | c :: s' =>
        (if p = '_' then true else asciiLower p == asciiLower c) &&
          likeMatch ps s'

/-- Evaluate `column LIKE pattern` on strings. -/
def sqlLike (pattern s : String) : Bool :=
  likeMatch pattern.toList s.toList

/-- The `books` route (`app.py` lines 152-160): with a non-empty `q`,
filter on ``title LIKE '%q%' OR author LIKE '%q%'``; otherwise list all. -/
def books (q : String) (db : DB) : List Book :=
  if q != "" then
    db.books.filter (fun b =>
      sqlLike ("%" ++ q ++ "%") b.title || sqlLike ("%" ++ q ++ "%") b.author)
  else
    db.books

/-- Case-sensitive substring test on character lists. -/
def containsSub (needle hay : List Char) : Bool :=
  hay.tails.any (fun t => needle.isPrefixOf t)

/-- Modelled from the spec: the spec's reading of the search — "title or
author contains the query substring (case-sensitive, simple substring
match, no ranking)".  Used only to compare the spec's words against the
behaviour of `books`. -/
def spec_books (q : String) (db : DB) : List Book :=
  if q != "" then
    db.books.filter (fun b =>
      containsSub q.toList b.title.toList || containsSub q.toList b.author.toList)
  else
    db.books

/-- ASCII-case-insensitive substring test on strings. -/
def ciContains (needle hay : String) : Bool :=
  containsSub (needle.toList.map asciiLower) (hay.toList.map asciiLower)

/-- A query character that `LIKE` does not treat literally. -/
def isWildcard (c : Char) : Bool :=
  c == '%' || c == '_'

/-!
## Operation traces

`Op` packages one POST request to any of the five book-mutating handlers;
`applyOp` is the database after the request completes (for an error exit —
flash, 404 or 500 — the session is not mutated or not committed, so the
database is unchanged).  `runOps` replays a whole request history from the
freshly initialised store.
-/

/-- One mutating request. -/
inductive Op where
  | add (title author isbn : String) (quantity : Int)
  | edit (bid : Nat) (title author isbn : String) (quantity : Int)
  | del (bid : Nat)
  | borrowOp (uid bid now : Nat)
  | returnOp (rid now : Nat)
deriving DecidableEq, Repr

/-- The database after one request. -/
def applyOp (db : DB) : Op → DB
  | Op.add t a i q =>
    match add_book t a i q db with
    | AddResult.conflict d => d
    | AddResult.added d => d
  | Op.edit b t a i q =>
    match edit_book b t a i q db with
    | EditResult.notFound => db
    | EditResult.edited d => d
  | Op.del b =>
    match delete_book b db with
    | DeleteResult.notFound => db
    | DeleteResult.integrityError => db
    | DeleteResult.deleted d => d
  | Op.borrowOp u b n =>
    match borrow u b n db with
    | BorrowResult.notFound => db
    | BorrowResult.unavailable d => d
    | BorrowResult.borrowed d => d
  | Op.returnOp r n =>
    match return_book r n db with
    | ReturnResult.notFound => db
    | ReturnResult.alreadyReturned d => d
    | ReturnResult.returned d => d
    | ReturnResult.crash => db

/-- Replay a request history. -/
def runOps (db : DB) : List Op → DB
  | [] => db
  | op :: rest => runOps (applyOp db op) rest

/-- The book id whose row a request just successfully returned, if any. -/
def returnedBookId (db : DB) : Op → Option Nat
  | Op.returnOp rid now =>
    match return_book rid now db with
    | ReturnResult.returned _ => (db.findBorrow rid).map Borrow.book_id
    | _ => none
  | _ => none

/-- The availability flag agrees with the quantity. -/
def bookConsistent (b : Book) : Bool :=
  b.available == decide (0 < b.quantity)

/-- Claim C1 as stated, checked across one request: every book in the
post-state has `available = (quantity > 0)`, except that the book of a
successful return has `available = true`. -/
def claimC1holds (db : DB) (op : Op) : Bool :=
  (applyOp db op).books.all (fun b =>
    if returnedBookId db op == some b.id then b.available else bookConsistent b)

/-- A request whose quantity input, if any, is non-negative. -/
def goodOp : Op → Bool
  | Op.add _ _ _ q => decide (0 ≤ q)
  | Op.edit _ _ _ _ q => decide (0 ≤ q)
  | _ => true

/-- The inductive store invariant: every book's flag agrees with its
quantity, quantities are non-negative, ids are below the autoincrement
counter, and ids are pairwise distinct. -/
def dbInv (db : DB) : Prop :=
  (∀ b ∈ db.books, b.available = decide (0 < b.quantity) ∧ 0 ≤ b.quantity ∧
      b.id < db.nextBookId) ∧
  (db.books.map Book.id).Nodup

/-!
## Helper lemmas
-/

theorem find?_updateWhere {α : Type} (key : α → Nat) (k : Nat) (g : α → α)
    (hg : ∀ x, key (g x) = key x) (l : List α) (a : α)
    (h : l.find? (fun x => key x == k) = some a) :
    (updateWhere key k g l).find? (fun x => key x == k) = some (g a) := by
  induction l with
  | nil => simp at h
  | cons x xs ih =>
    have hu : updateWhere key k g (x :: xs)
        = (if key x == k then g x else x) :: updateWhere key k g xs := rfl
    by_cases hx : (key x == k) = true
    · simp only [List.find?_cons, hx] at h
      cases h
      rw [hu, if_pos hx]
      simp [List.find?_cons, hg, hx]
    · rw [Bool.not_eq_true] at hx
      simp only [List.find?_cons, hx] at h
      rw [hu, if_neg (by simp [hx])]
      simp only [List.find?_cons, hx]
      exact ih h

/-!
## Concrete fixtures for witnesses and counterexamples
-/

/-- A one-copy book. -/
def duneBook : Book :=
  { id := 0, title := "Dune", author := "Herbert", isbn := "",
    quantity := 1, available := true }

/-- A zero-copy book. -/
def emptyBook : Book :=
  { id := 0, title := "Dune", author := "Herbert", isbn := "",
    quantity := 0, available := false }

/-- A two-copy book. -/
def twoBook : Book :=
  { id := 0, title := "Dune", author := "Herbert", isbn := "",
    quantity := 2, available := true }

/-- Store holding just `duneBook`. -/
def duneDB : DB :=
  { users := [], books := [duneBook], borrows := [],
    nextUserId := 0, nextBookId := 1, nextBorrowId := 0 }

/-- Store holding just `emptyBook`. -/
def emptyBookDB : DB :=
  { users := [], books := [emptyBook], borrows := [],
    nextUserId := 0, nextBookId := 1, nextBorrowId := 0 }

/-- Store holding just `twoBook`. -/
def twoBookDB : DB :=
  { users := [], books := [twoBook], borrows := [],
    nextUserId := 0, nextBookId := 1, nextBorrowId := 0 }

/-- An open borrow row for `duneBook`. -/
def openRow : Borrow :=
  { id := 0, user_id := 1, book_id := 0, borrowed_at := 3, returned_at := none }

/-- A closed borrow row. -/
def closedRow : Borrow :=
  { id := 0, user_id := 1, book_id := 0, borrowed_at := 3, returned_at := some 4 }

/-- Store with `emptyBook` on loan through `openRow`. -/
def onLoanDB : DB :=
  { users := [], books := [emptyBook], borrows := [openRow],
    nextUserId := 0, nextBookId := 1, nextBorrowId := 1 }

/-- A store whose only borrow row is already returned. -/
def closedRowDB : DB :=
  { users := [], books := [duneBook], borrows := [closedRow],
    nextUserId := 0, nextBookId := 1, nextBorrowId := 1 }

/-!
## C2 — successful borrow
-/

/-- C2: from a state where the book's flag agrees with its positive
quantity, a borrow decrements the quantity by one, leaves the flag equal to
(new quantity > 0), and appends exactly one open Borrow row for the calling
user with `borrowed_at = now`. -/
theorem borrow_success_effect (uid bid now : Nat) (db : DB) (b : Book)
    (hfind : db.findBook bid = some b) (hq : 0 < b.quantity)
    (hav : b.available = decide (0 < b.quantity)) :
    ∃ db₂, borrow uid bid now db = BorrowResult.borrowed db₂ ∧
      db₂.findBook bid = some { b with quantity := b.quantity - 1,
                                       available := decide (0 < b.quantity - 1) } ∧
      db₂.borrows = db.borrows ++
        [{ id := db.nextBorrowId, user_id := uid, book_id := bid,
           borrowed_at := now, returned_at := none }] := by
  have hstep : borrow uid bid now db = BorrowResult.borrowed { db with
      books := updateWhere Book.id bid
        (fun bb => { bb with quantity := bb.quantity - 1,
                             available := if bb.quantity - 1 == 0 then false
                                          else bb.available }) db.books,
      borrows := db.borrows ++ [{ id := db.nextBorrowId, user_id := uid,
                                  book_id := bid, borrowed_at := now,
                                  returned_at := none }],
      nextBorrowId := db.nextBorrowId + 1 } := by
    simp [borrow, hfind, not_le.mpr hq]
  refine ⟨_, hstep, ?_, rfl⟩
  have hfound := find?_updateWhere Book.id bid
    (fun bb => { bb with quantity := bb.quantity - 1,
                         available := if bb.quantity - 1 == 0 then false
                                      else bb.available })
    (fun _ => rfl) db.books b hfind
  rw [show (DB.findBook { db with
      books := updateWhere Book.id bid
        (fun bb => { bb with quantity := bb.quantity - 1,
                             available := if bb.quantity - 1 == 0 then false
                                          else bb.available }) db.books,
      borrows := db.borrows ++ [{ id := db.nextBorrowId, user_id := uid,
                                  book_id := bid, borrowed_at := now,
                                  returned_at := none }],
      nextBorrowId := db.nextBorrowId + 1 } bid)
    = (updateWhere Book.id bid
        (fun bb => { bb with quantity := bb.quantity - 1,
                             available := if bb.quantity - 1 == 0 then false
                                          else bb.available }) db.books).find?
        (fun x => Book.id x == bid) from rfl]
  rw [hfound]
  congr 1
  have hflag : (if b.quantity - 1 == 0 then false else b.available)
      = decide (0 < b.quantity - 1) := by
    by_cases h0 : b.quantity - 1 = 0
    · simp [h0]
    · have h1 : 0 < b.quantity - 1 := by omega
      simp [h0, hav, hq, h1]
  show ({ id := b.id, title := b.title, author := b.author, isbn := b.isbn,
          quantity := b.quantity - 1,
          available := if b.quantity - 1 == 0 then false else b.available } : Book)
      = _
  rw [hflag]

/-- Witness for C2 at a concrete one-copy store: borrowing the single copy
leaves quantity 0, flag false, and one open row. -/
theorem borrow_success_effect_witness :
    ∃ db₂, borrow 1 0 5 duneDB = BorrowResult.borrowed db₂ ∧
      db₂.findBook 0 = some emptyBook ∧
      db₂.borrows = [{ id := 0, user_id := 1, book_id := 0,
                       borrowed_at := 5, returned_at := none }] :=
  borrow_success_effect 1 0 5 duneDB duneBook rfl (by decide) (by decide)

/-!
## C3 — borrow rejected when out of stock
-/

/-- C3: when the book's quantity is not positive, borrow flashes "Book not
available" and redirects, creating no Borrow row and leaving the whole
store — the book's quantity and flag included — unchanged. -/
theorem borrow_rejected_when_out_of_stock (uid bid now : Nat) (db : DB)
    (b : Book) (hfind : db.findBook bid = some b) (hq : b.quantity ≤ 0) :
    borrow uid bid now db = BorrowResult.unavailable db := by
  simp [borrow, hfind, hq]

/-- Witness for C3: borrowing the zero-copy book is rejected. -/
theorem borrow_rejected_when_out_of_stock_witness :
    borrow 1 0 5 emptyBookDB = BorrowResult.unavailable emptyBookDB :=
  borrow_rejected_when_out_of_stock 1 0 5 emptyBookDB emptyBook rfl (by decide)

/-!
## C4 — returning an already-returned row is a reported no-op
-/

/-- C4: when the borrow row's `returned_at` is already set, `return_book`
flashes "This book is already returned" (an info message, not an error) and
leaves the whole store unchanged, so a second return of the same id never
touches the book's quantity again. -/
theorem return_noop_when_already_returned (rid now : Nat) (db : DB)
    (r : Borrow) (hfind : db.findBorrow rid = some r)
    (hret : r.returned_at.isSome) :
    return_book rid now db = ReturnResult.alreadyReturned db := by
  simp [return_book, hfind, hret]

/-- Witness for C4 on a store whose single borrow row is closed. -/
theorem return_noop_when_already_returned_witness :
    return_book 0 9 closedRowDB = ReturnResult.alreadyReturned closedRowDB :=
  return_noop_when_already_returned 0 9 closedRowDB closedRow rfl (by decide)

/-!
## C5 — returning an open row
-/

/-- C5: returning an open borrow row whose book exists stamps
`returned_at = now`, increments the book's quantity by one, and hardcodes
`available = true` without recomputing it from the quantity. -/
theorem return_open_effect (rid now : Nat) (db : DB) (r : Borrow) (b : Book)
    (hfind : db.findBorrow rid = some r) (hret : r.returned_at = none)
    (hbook : db.findBook r.book_id = some b) :
    ∃ db₂, return_book rid now db = ReturnResult.returned db₂ ∧
      db₂.findBorrow rid = some { r with returned_at := some now } ∧
      db₂.findBook r.book_id = some { b with quantity := b.quantity + 1,
                                             available := true } := by
  have hstep : return_book rid now db = ReturnResult.returned { db with
      borrows := updateWhere Borrow.id rid
        (fun x => { x with returned_at := some now }) db.borrows,
      books := updateWhere Book.id r.book_id
        (fun bb => { bb with quantity := bb.quantity + 1,
                             available := true }) db.books } := by
    simp [return_book, hfind, hret, hbook]
  refine ⟨_, hstep, ?_, ?_⟩
  · exact find?_updateWhere Borrow.id rid
      (fun x => { x with returned_at := some now }) (fun _ => rfl)
      db.borrows r hfind
  · exact find?_updateWhere Book.id r.book_id
      (fun bb => { bb with quantity := bb.quantity + 1, available := true })
      (fun _ => rfl) db.books b hbook

/-- Witness for C5: returning the open row on the zero-copy book yields
quantity 1 and flag true. -/
theorem return_open_effect_witness :
    ∃ db₂, return_book 0 9 onLoanDB = ReturnResult.returned db₂ ∧
      db₂.findBorrow 0 = some { id := 0, user_id := 1, book_id := 0,
                                borrowed_at := 3, returned_at := some 9 } ∧
      db₂.findBook 0 = some duneBook :=
  return_open_effect 0 9 onLoanDB openRow emptyBook rfl rfl rfl

/-!
## C10 — no one-open-loan-per-user guard
-/

/-- The row mutation a successful borrow applies to the book. -/
def borrowG : Book → Book := fun bb =>
  { bb with quantity := bb.quantity - 1,
            available := if bb.quantity - 1 == 0 then false else bb.available }

/-- The store after a successful borrow. -/
def borrowPost (uid bid now : Nat) (db : DB) : DB :=
  { db with
    books := updateWhere Book.id bid borrowG db.books,
    borrows := db.borrows ++ [{ id := db.nextBorrowId, user_id := uid,
                                book_id := bid, borrowed_at := now,
                                returned_at := none }],
    nextBorrowId := db.nextBorrowId + 1 }

theorem borrow_step (uid bid now : Nat) (db : DB) (b : Book)
    (hfind : db.findBook bid = some b) (hq : ¬ b.quantity ≤ 0) :
    borrow uid bid now db = BorrowResult.borrowed (borrowPost uid bid now db) := by
  simp only [borrow, hfind]
  rw [if_neg hq]
  rfl

theorem findBook_borrowPost (uid bid now : Nat) (db : DB) (b : Book)
    (hfind : db.findBook bid = some b) :
    (borrowPost uid bid now db).findBook bid = some (borrowG b) :=
  find?_updateWhere Book.id bid borrowG (fun _ => rfl) db.books b hfind

/-- C10: nothing restricts a user to one open loan per book — from a book
with at least two copies, the same user's two successive borrows both
succeed and append two distinct open Borrow rows for the same (user, book)
pair. -/
theorem borrow_twice_same_user (uid bid n₁ n₂ : Nat) (db : DB) (b : Book)
    (hfind : db.findBook bid = some b) (hq : 2 ≤ b.quantity) :
    ∃ db₁ db₂, borrow uid bid n₁ db = BorrowResult.borrowed db₁ ∧
      borrow uid bid n₂ db₁ = BorrowResult.borrowed db₂ ∧
      db₂.borrows = db.borrows ++
        [{ id := db.nextBorrowId, user_id := uid, book_id := bid,
           borrowed_at := n₁, returned_at := none },
         { id := db.nextBorrowId + 1, user_id := uid, book_id := bid,
           borrowed_at := n₂, returned_at := none }] ∧
      db.nextBorrowId ≠ db.nextBorrowId + 1 := by
  have hq1 : ¬ b.quantity ≤ 0 := by omega
  have hq2 : ¬ (borrowG b).quantity ≤ 0 := by
    simp only [borrowG]
    omega
  refine ⟨borrowPost uid bid n₁ db,
          borrowPost uid bid n₂ (borrowPost uid bid n₁ db),
          borrow_step uid bid n₁ db b hfind hq1,
          borrow_step uid bid n₂ (borrowPost uid bid n₁ db) (borrowG b)
            (findBook_borrowPost uid bid n₁ db b hfind) hq2,
          ?_, by omega⟩
  simp [borrowPost]

/-- Witness for C10 on the two-copy store. -/
theorem borrow_twice_same_user_witness :
    ∃ db₁ db₂, borrow 7 0 1 twoBookDB = BorrowResult.borrowed db₁ ∧
      borrow 7 0 2 db₁ = BorrowResult.borrowed db₂ ∧
      db₂.borrows =
        [{ id := 0, user_id := 7, book_id := 0,
           borrowed_at := 1, returned_at := none },
         { id := 1, user_id := 7, book_id := 0,
           borrowed_at := 2, returned_at := none }] ∧
      (0 : Nat) ≠ 1 :=
  borrow_twice_same_user 7 0 1 2 twoBookDB twoBook rfl (by decide)

/-!
## C7 — registration
-/

/-- C7: a mismatched confirmation is rejected before anything is looked up
or written (the store comes back untouched even when duplicates exist); a
taken username or email is rejected; otherwise exactly one User row is
appended, storing the hash of the password — never the plaintext, which the
hash can never equal. -/
theorem register_spec (fn un em pw cf : String) (db : DB) :
    (pw ≠ cf → register fn un em pw cf db = RegisterResult.mismatch db) ∧
    (pw = cf →
      db.users.any (fun u => u.username == un || u.email == em) = true →
      register fn un em pw cf db = RegisterResult.duplicate db) ∧
    (pw = cf →
      db.users.any (fun u => u.username == un || u.email == em) = false →
      register fn un em pw cf db = RegisterResult.registered { db with
        users := db.users ++ [{ id := db.nextUserId, fullname := fn,
                                username := un, email := em,
                                password_hash := generate_password_hash pw }],
        nextUserId := db.nextUserId + 1 } ∧
      generate_password_hash pw ≠ pw) := by
  refine ⟨?_, ?_, ?_⟩
  · intro hne
    simp [register, hne]
  · intro heq hdup
    simp [register, heq, hdup]
  · intro heq hdup
    refine ⟨by simp [register, heq, hdup], ?_⟩
    intro habs
    have hlen := congrArg String.length habs
    rw [generate_password_hash, String.length_append] at hlen
    rw [show ("pbkdf2:sha256$" : String).length = 14 from rfl] at hlen
    omega

/-- Witness for C7: the mismatch branch at a concrete input. -/
theorem register_spec_witness :
    register "Ann" "ann" "ann@x" "pw1" "pw2" DB.empty
      = RegisterResult.mismatch DB.empty :=
  (register_spec "Ann" "ann" "ann@x" "pw1" "pw2" DB.empty).1 (by decide)

/-!
## C9 — the return-after-delete crash
-/

/-- The no-book branch of `return_book` is the only unhandled-exception
exit: the handler crashes exactly when the borrow row is found, still open,
and its referenced book row no longer exists. -/
theorem return_book_crash_iff (rid now : Nat) (db : DB) :
    return_book rid now db = ReturnResult.crash ↔
      ∃ r, db.findBorrow rid = some r ∧ r.returned_at = none ∧
        db.findBook r.book_id = none := by
  constructor
  · intro h
    cases hf : db.findBorrow rid with
    | none => simp [return_book, hf] at h
    | some r =>
      refine ⟨r, rfl, ?_, ?_⟩
      · cases hr : r.returned_at with
        | none => rfl
        | some t => simp [return_book, hf, hr] at h
      · cases hb : db.findBook r.book_id with
        | none => rfl
        | some b =>
          have hr : r.returned_at = none := by
            cases hr : r.returned_at with
            | none => rfl
            | some t => simp [return_book, hf, hr] at h
          simp [return_book, hf, hr, hb] at h
  · rintro ⟨r, hf, hr, hb⟩
    simp [return_book, hf, hr, hb]

/-!
## C8 — the search is SQLite `LIKE`, not a case-sensitive substring match
-/

/-- C8 as stated fails on the code: for the reachable one-book store, the
query "dune" matches the title "Dune" under SQLite's default
case-insensitive `LIKE`, while the spec's case-sensitive substring match
rejects it. -/
theorem books_query_counterexample :
    books "dune" duneDB = [duneBook] ∧ spec_books "dune" duneDB = [] := by
  constructor <;> rfl

theorem containsSub_iff (needle hay : List Char) :
    containsSub needle hay = true ↔ needle <:+: hay := by
  constructor
  · intro h
    rw [containsSub, List.any_eq_true] at h
    obtain ⟨t, ht, hp⟩ := h
    rw [List.mem_tails _ _] at ht
    rw [ List.isPrefixOf_iff_prefix] at hp
    exact List.infix_iff_prefix_suffix.mpr ⟨t, hp, ht⟩
  · intro h
    obtain ⟨t, hp, ht⟩ := List.infix_iff_prefix_suffix.mp h
    rw [containsSub, List.any_eq_true]
    exact ⟨t, (List.mem_tails _ _).mpr ht, List.isPrefixOf_iff_prefix.mpr hp⟩

theorem suffix_map_iff {α β : Type} (f : α → β) (l : List α) (u : List β) :
    u <:+ l.map f ↔ ∃ t, t <:+ l ∧ u = t.map f := by
  constructor
  · rintro ⟨pre, hpre⟩
    obtain ⟨l₁, l₂, hl, h₁, h₂⟩ := List.map_eq_append_iff.mp hpre.symm
    exact ⟨l₂, ⟨l₁, hl.symm⟩, h₂.symm⟩
  · rintro ⟨t, ht, rfl⟩
    exact ht.map f

theorem likeMatch_pct (ps t : List Char) :
    likeMatch ('%' :: ps) t = t.tails.any (fun u => likeMatch ps u) := by
  cases t with
  | nil => rw [likeMatch.eq_2, if_pos rfl]
  | cons c t' => rw [likeMatch.eq_3, if_pos rfl]

theorem likeMatch_lit_nil (p : Char) (ps : List Char) (hp : ¬ p = '%') :
    likeMatch (p :: ps) [] = false := by
  rw [likeMatch.eq_2, if_neg hp]

theorem likeMatch_lit_cons (p : Char) (ps : List Char) (c : Char)
    (s : List Char) (hp : ¬ p = '%') :
    likeMatch (p :: ps) (c :: s)
      = ((if p = '_' then true else asciiLower p == asciiLower c) &&
          likeMatch ps s) := by
  rw [likeMatch.eq_3]
  rw [if_neg hp]

theorem likeMatch_plain_append_pct (q : List Char)
    (hq : ∀ c ∈ q, isWildcard c = false) (t : List Char) :
    likeMatch (q ++ ['%']) t = true ↔
      q.map asciiLower <+: t.map asciiLower := by
  induction q generalizing t with
  | nil =>
    simp only [List.nil_append, List.map_nil]
    constructor
    · intro _
      exact List.nil_prefix
    · intro _
      rw [likeMatch_pct, List.any_eq_true]
      exact ⟨[], (List.mem_tails _ _).mpr List.nil_suffix, rfl⟩
  | cons c q ih =>
    have hc := hq c (List.mem_cons_self c q)
    rw [isWildcard] at hc
    have hcp : ¬ c = '%' := by
      intro h
      rw [h] at hc
      simp at hc
    have hcu : ¬ c = '_' := by
      intro h
      rw [h] at hc
      simp at hc
    have hq' : ∀ d ∈ q, isWildcard d = false := fun d hd =>
      hq d (List.mem_cons_of_mem c hd)
    cases t with
    | nil =>
      rw [List.cons_append, likeMatch_lit_nil _ _ hcp]
      simp
    | cons d t' =>
      rw [List.cons_append, likeMatch_lit_cons _ _ _ _ hcp, if_neg hcu]
      simp only [List.map_cons, List.cons_prefix_cons]
      rw [Bool.and_eq_true, beq_iff_eq, ih hq' t']

theorem sqlLike_contains_eq_ciContains (q s : String)
    (hq : ∀ c ∈ q.toList, isWildcard c = false) :
    sqlLike ("%" ++ q ++ "%") s = ciContains q s := by
  rw [Bool.eq_iff_iff]
  have hpat : ("%" ++ q ++ "%").toList = '%' :: (q.toList ++ ['%']) := rfl
  rw [sqlLike, hpat]
  constructor
  · intro h
    rw [likeMatch_pct, List.any_eq_true] at h
    obtain ⟨t, ht, hm⟩ := h
    rw [List.mem_tails _ _] at ht
    rw [likeMatch_plain_append_pct q.toList hq t] at hm
    rw [ciContains, containsSub_iff]
    exact List.infix_iff_prefix_suffix.mpr
      ⟨t.map asciiLower, hm, ht.map asciiLower⟩
  · intro h
    rw [ciContains, containsSub_iff] at h
    obtain ⟨u, hp, hs⟩ := List.infix_iff_prefix_suffix.mp h
    obtain ⟨t, ht, rfl⟩ := (suffix_map_iff asciiLower s.toList u).mp hs
    rw [likeMatch_pct, List.any_eq_true]
    exact ⟨t, (List.mem_tails _ _).mpr ht,
      (likeMatch_plain_append_pct q.toList hq t).mpr hp⟩

theorem ciContains_empty (hay : String) : ciContains "" hay = true := by
  rw [ciContains, containsSub_iff]
  exact List.nil_infix

/-- C8 amended: for a query free of the `LIKE` wildcards `%` and `_`, the
route returns exactly the books whose title or author contains the query as
an ASCII-case-insensitive substring (and all books for the empty query,
which the case-insensitive filter also accepts vacuously). -/
theorem books_query_amended (q : String) (db : DB)
    (hq : ∀ c ∈ q.toList, isWildcard c = false) :
    books q db = db.books.filter
      (fun b => ciContains q b.title || ciContains q b.author) := by
  by_cases h0 : q = ""
  · subst h0
    have hlhs : books "" db = db.books := rfl
    rw [hlhs, List.filter_congr (fun b _ => ?_), List.filter_true]
    simp [ciContains_empty]
  · have hne : (q != "") = true := by
      simpa using h0
    rw [books, if_pos hne]
    exact List.filter_congr (fun b _ => by
      rw [sqlLike_contains_eq_ciContains q b.title hq,
          sqlLike_contains_eq_ciContains q b.author hq])

/-- Witness for the amended C8 at the one-book store. -/
theorem books_query_amended_witness :
    (∀ c ∈ "dune".toList, isWildcard c = false) ∧
    books "dune" duneDB = duneDB.books.filter
      (fun b => ciContains "dune" b.title || ciContains "dune" b.author) :=
  ⟨by decide, books_query_amended "dune" duneDB (by decide)⟩

/-!
## Result characterizations of each mutating handler
-/

theorem map_key_updateWhere {α : Type} (key : α → Nat) (k : Nat) (g : α → α)
    (hg : ∀ x, key (g x) = key x) (l : List α) :
    (updateWhere key k g l).map key = l.map key := by
  rw [updateWhere, List.map_map]
  apply List.map_congr_left
  intro x _
  by_cases h : key x = k <;> simp [h, hg]

theorem add_book_conflict_db (t a i : String) (q : Int) (db d : DB)
    (h : add_book t a i q db = AddResult.conflict d) : d = db := by
  rw [add_book] at h
  split at h
  · cases h
    rfl
  · cases h

theorem add_book_added_db (t a i : String) (q : Int) (db d : DB)
    (h : add_book t a i q db = AddResult.added d) :
    d = { db with
      books := db.books ++ [{ id := db.nextBookId, title := t, author := a,
                              isbn := i, quantity := q,
                              available := decide (q > 0) }],
      nextBookId := db.nextBookId + 1 } := by
  rw [add_book] at h
  split at h
  · cases h
  · cases h
    rfl

theorem edit_book_edited_db (bid : Nat) (t a i : String) (q : Int) (db d : DB)
    (h : edit_book bid t a i q db = EditResult.edited d) :
    d = { db with
      books := updateWhere Book.id bid
        (fun b => { b with title := t, author := a, isbn := i,
                           quantity := q,
                           available := decide (q > 0) }) db.books } := by
  rw [edit_book] at h
  cases hf : db.findBook bid with
  | none => rw [hf] at h; cases h
  | some b =>
    rw [hf] at h
    cases h
    rfl

theorem delete_book_deleted_db (bid : Nat) (db d : DB)
    (h : delete_book bid db = DeleteResult.deleted d) :
    db.borrows.any (fun r => r.book_id == bid) = false ∧
    d = { db with books := db.books.filter (fun b => b.id != bid) } := by
  rw [delete_book] at h
  cases hf : db.findBook bid with
  | none => rw [hf] at h; cases h
  | some b =>
    rw [hf] at h
    by_cases hg : db.borrows.any (fun r => r.book_id == bid) = true
    · rw [if_pos hg] at h
      cases h
    · rw [if_neg hg] at h
      cases h
      exact ⟨by simpa using hg, rfl⟩

theorem borrow_unavailable_db (uid bid now : Nat) (db d : DB)
    (h : borrow uid bid now db = BorrowResult.unavailable d) : d = db := by
  cases hf : db.findBook bid with
  | none => simp [borrow, hf] at h
  | some b =>
    by_cases hq : b.quantity ≤ 0
    · simp [borrow, hf, hq] at h
      exact h.symm
    · rw [borrow_step uid bid now db b hf hq] at h
      cases h

theorem borrow_borrowed_db (uid bid now : Nat) (db d : DB)
    (h : borrow uid bid now db = BorrowResult.borrowed d) :
    ∃ b, db.findBook bid = some b ∧ ¬ b.quantity ≤ 0 ∧
      d = borrowPost uid bid now db := by
  cases hf : db.findBook bid with
  | none => simp [borrow, hf] at h
  | some b =>
    by_cases hq : b.quantity ≤ 0
    · simp [borrow, hf, hq] at h
    · rw [borrow_step uid bid now db b hf hq] at h
      injection h with h
      exact ⟨b, rfl, hq, h.symm⟩

theorem return_already_db (rid now : Nat) (db d : DB)
    (h : return_book rid now db = ReturnResult.alreadyReturned d) : d = db := by
  cases hf : db.findBorrow rid with
  | none => simp [return_book, hf] at h
  | some r =>
    by_cases hr : r.returned_at.isSome
    · simp [return_book, hf, hr] at h
      exact h.symm
    · cases hb : db.findBook r.book_id with
      | none => simp [return_book, hf, hr, hb] at h
      | some b => simp [return_book, hf, hr, hb] at h

theorem return_returned_db (rid now : Nat) (db d : DB)
    (h : return_book rid now db = ReturnResult.returned d) :
    ∃ r b, db.findBorrow rid = some r ∧ r.returned_at = none ∧
      db.findBook r.book_id = some b ∧
      d = { db with
        borrows := updateWhere Borrow.id rid
          (fun x => { x with returned_at := some now }) db.borrows,
        books := updateWhere Book.id r.book_id
          (fun bb => { bb with quantity := bb.quantity + 1,
                               available := true }) db.books } := by
  cases hf : db.findBorrow rid with
  | none => simp [return_book, hf] at h
  | some r =>
    by_cases hr : r.returned_at.isSome
    · simp [return_book, hf, hr] at h
    · cases hb : db.findBook r.book_id with
      | none => simp [return_book, hf, hr, hb] at h
      | some b =>
        have hrn : r.returned_at = none := by
          cases hrv : r.returned_at with
          | none => rfl
          | some v => rw [hrv] at hr; simp at hr
        refine ⟨r, b, rfl, hrn, hb, ?_⟩
        simp only [return_book, hf, hrn, hb] at h
        injection h with h
        exact h.symm

/-!
## The store invariant is inductive over well-formed requests
-/

theorem find?_pred {α : Type} (p : α → Bool) (l : List α) (a : α)
    (h : l.find? p = some a) : p a = true :=
  List.find?_some h

theorem dbInv_empty : dbInv DB.empty := by
  constructor
  · intro b hb
    simp [DB.empty] at hb
  · simp [DB.empty]

theorem dbInv_step (db : DB) (op : Op) (hinv : dbInv db)
    (hop : goodOp op = true) : dbInv (applyOp db op) := by
  obtain ⟨hbooks, hnodup⟩ := hinv
  cases op with
  | add t a i q =>
    have hq : 0 ≤ q := by simpa [goodOp] using hop
    simp only [applyOp]
    cases hadd : add_book t a i q db with
    | conflict d =>
      show dbInv d
      rw [add_book_conflict_db t a i q db d hadd]
      exact ⟨hbooks, hnodup⟩
    | added d =>
      show dbInv d
      rw [add_book_added_db t a i q db d hadd]
      constructor
      · intro b hb
        rw [List.mem_append] at hb
        cases hb with
        | inl hb =>
          obtain ⟨h1, h2, h3⟩ := hbooks b hb
          exact ⟨h1, h2, Nat.lt_succ_of_lt h3⟩
        | inr hb =>
          rw [List.mem_singleton] at hb
          subst hb
          exact ⟨rfl, hq, Nat.lt_succ_self _⟩
      · rw [List.map_append, List.nodup_append]
        refine ⟨hnodup, List.nodup_singleton _, ?_⟩
        intro x hx hx'
        simp only [List.map_cons, List.map_nil, List.mem_singleton] at hx'
        obtain ⟨y, hy, hxy⟩ := List.mem_map.mp hx
        have := (hbooks y hy).2.2
        omega
  | edit bid t a i q =>
    have hq : 0 ≤ q := by simpa [goodOp] using hop
    simp only [applyOp]
    cases hedit : edit_book bid t a i q db with
    | notFound => exact ⟨hbooks, hnodup⟩
    | edited d =>
      show dbInv d
      rw [edit_book_edited_db bid t a i q db d hedit]
      constructor
      · intro b hb
        obtain ⟨y, hy, hxy⟩ := List.mem_map.mp hb
        by_cases hk : (Book.id y == bid) = true
        · rw [if_pos hk] at hxy
          subst hxy
          exact ⟨rfl, hq, (hbooks y hy).2.2⟩
        · rw [if_neg hk] at hxy
          subst hxy
          exact hbooks y hy
      · have hmap := map_key_updateWhere Book.id bid
          (fun b => { b with title := t, author := a, isbn := i,
                             quantity := q,
                             available := decide (q > 0) })
          (fun _ => rfl) db.books
        show (List.map Book.id (updateWhere Book.id bid
          (fun b => { b with title := t, author := a, isbn := i,
                             quantity := q,
                             available := decide (q > 0) }) db.books)).Nodup
        rw [hmap]
        exact hnodup
  | del bid =>
    simp only [applyOp]
    cases hdel : delete_book bid db with
    | notFound => exact ⟨hbooks, hnodup⟩
    | integrityError => exact ⟨hbooks, hnodup⟩
    | deleted d =>
      show dbInv d
      rw [(delete_book_deleted_db bid db d hdel).2]
      constructor
      · intro b hb
        exact hbooks b (List.mem_of_mem_filter hb)
      · exact ((List.filter_sublist db.books).map Book.id).nodup hnodup
  | borrowOp uid bid n =>
    simp only [applyOp]
    cases hbor : borrow uid bid n db with
    | notFound => exact ⟨hbooks, hnodup⟩
    | unavailable d =>
      show dbInv d
      rw [borrow_unavailable_db uid bid n db d hbor]
      exact ⟨hbooks, hnodup⟩
    | borrowed d =>
      show dbInv d
      obtain ⟨b, hfind, hq, hd⟩ := borrow_borrowed_db uid bid n db d hbor
      subst hd
      have hfind' : db.books.find? (fun x => x.id == bid) = some b := hfind
      have hb_mem : b ∈ db.books := List.mem_of_find?_eq_some hfind'
      have hb_id : (b.id == bid) = true :=
        find?_pred (fun x => x.id == bid) db.books b hfind'
      constructor
      · intro x hx
        obtain ⟨y, hy, hxy⟩ := List.mem_map.mp hx
        by_cases hk : (Book.id y == bid) = true
        · rw [if_pos hk] at hxy
          subst hxy
          have hyb : y = b := by
            apply List.inj_on_of_nodup_map hnodup hy hb_mem
            have h1 : y.id = bid := by simpa using hk
            have h2 : b.id = bid := by simpa using hb_id
            exact h1.trans h2.symm
          subst hyb
          obtain ⟨hav, hq0, hid⟩ := hbooks y hy
          have hqpos : 0 < y.quantity := by omega
          refine ⟨?_, by simp [borrowG]; omega, by simpa [borrowG] using hid⟩
          simp only [borrowG]
          by_cases h0 : y.quantity - 1 = 0
          · simp [h0]
          · have h1 : 0 < y.quantity - 1 := by omega
            simp [h0, hav, hqpos, h1]
        · rw [if_neg hk] at hxy
          subst hxy
          exact hbooks y hy
      · rw [show (borrowPost uid bid n db).books
            = updateWhere Book.id bid borrowG db.books from rfl]
        rw [map_key_updateWhere Book.id bid borrowG (fun _ => rfl) db.books]
        exact hnodup
  | returnOp rid n =>
    simp only [applyOp]
    cases hret : return_book rid n db with
    | notFound => exact ⟨hbooks, hnodup⟩
    | crash => exact ⟨hbooks, hnodup⟩
    | alreadyReturned d =>
      show dbInv d
      rw [return_already_db rid n db d hret]
      exact ⟨hbooks, hnodup⟩
    | returned d =>
      show dbInv d
      obtain ⟨r, b, hfr, hrn, hfb, hd⟩ := return_returned_db rid n db d hret
      subst hd
      constructor
      · intro x hx
        obtain ⟨y, hy, hxy⟩ := List.mem_map.mp hx
        by_cases hk : (Book.id y == r.book_id) = true
        · rw [if_pos hk] at hxy
          subst hxy
          obtain ⟨hav, hq0, hid⟩ := hbooks y hy
          have hpos : (0 : Int) < y.quantity + 1 := by omega
          exact ⟨by simp [hpos], by simp; omega, by simpa using hid⟩
        · rw [if_neg hk] at hxy
          subst hxy
          exact hbooks y hy
      · have hmap := map_key_updateWhere Book.id r.book_id
          (fun bb => { bb with quantity := bb.quantity + 1,
                               available := true })
          (fun _ => rfl) db.books
        show (List.map Book.id (updateWhere Book.id r.book_id
          (fun bb => { bb with quantity := bb.quantity + 1,
                               available := true }) db.books)).Nodup
        rw [hmap]
        exact hnodup

theorem dbInv_runOps_of (db : DB) (ops : List Op) (hdb : dbInv db)
    (h : ∀ op ∈ ops, goodOp op = true) : dbInv (runOps db ops) := by
  induction ops generalizing db with
  | nil => exact hdb
  | cons op rest ih =>
    rw [runOps]
    exact ih (applyOp db op)
      (dbInv_step db op hdb (h op (List.mem_cons_self op rest)))
      (fun o ho => h o (List.mem_cons_of_mem op ho))

theorem dbInv_runOps (ops : List Op) (h : ∀ op ∈ ops, goodOp op = true) :
    dbInv (runOps DB.empty ops) :=
  dbInv_runOps_of DB.empty ops dbInv_empty h

/-!
## C1 — the availability-flag invariant
-/

/-- The request trace behind the C1 counterexample: stock one copy, borrow
it, edit the quantity down to -1 (the form accepts any integer), then
return the loan — leaving the book at quantity 0 with the hardcoded
post-return flag true. -/
def c1Prefix : List Op :=
  [Op.add "Dune" "Herbert" "" 1, Op.borrowOp 1 0 0,
   Op.edit 0 "Dune" "Herbert" "" (-1), Op.returnOp 0 1]

/-- C1 as stated fails on the code: after replaying `c1Prefix` from the
fresh store, the next request — adding an unrelated book — is an operation
after which the first book still carries `available = true` while
`quantity = 0`, and the stated exception does not apply because that
operation is not a return. -/
theorem claimC1_counterexample :
    claimC1holds (runOps DB.empty c1Prefix) (Op.add "Emma" "Austen" "" 1)
      = false := by
  rfl

/-- C1 amended: as long as every add and edit submits a non-negative
quantity, `available = (quantity > 0)` holds for every book after every
replayed request — with no exception needed: immediately after a successful
return the hardcoded `true` coincides with the recomputed flag, because the
just-incremented quantity is positive. -/
theorem available_iff_quantity_pos (ops : List Op)
    (hops : ∀ op ∈ ops, goodOp op = true) :
    ∀ b ∈ (runOps DB.empty ops).books, b.available = decide (0 < b.quantity) :=
  fun b hb => ((dbInv_runOps ops hops).1 b hb).1

/-- Witness for the amended C1 on an add-borrow-return trace. -/
theorem available_iff_quantity_pos_witness :
    (∀ op ∈ [Op.add "Dune" "Herbert" "" 1, Op.borrowOp 1 0 0,
             Op.returnOp 0 2], goodOp op = true) ∧
    ∀ b ∈ (runOps DB.empty [Op.add "Dune" "Herbert" "" 1, Op.borrowOp 1 0 0,
             Op.returnOp 0 2]).books, b.available = decide (0 < b.quantity) :=
  ⟨by decide, available_iff_quantity_pos _ (by decide)⟩

/-!
## C6 — quantities never negative
-/

/-- C6 as stated fails on the code: `edit_book` stores whatever integer the
form submits, so editing the stocked book's quantity to -1 leaves a book
with negative quantity. -/
theorem quantity_nonneg_counterexample :
    (runOps DB.empty [Op.add "Dune" "Herbert" "" 1,
        Op.edit 0 "Dune" "Herbert" "" (-1)]).books.all
      (fun b => decide (0 ≤ b.quantity)) = false := by
  rfl

/-- C6 amended: as long as every add and edit submits a non-negative
quantity, no replayed request sequence leaves any book with negative
quantity — in particular borrow and return alone can never drive a
quantity below zero. -/
theorem quantity_nonneg (ops : List Op)
    (hops : ∀ op ∈ ops, goodOp op = true) :
    ∀ b ∈ (runOps DB.empty ops).books, 0 ≤ b.quantity :=
  fun b hb => ((dbInv_runOps ops hops).1 b hb).2.1

/-- Witness for the amended C6 on an add-borrow-borrow trace. -/
theorem quantity_nonneg_witness :
    (∀ op ∈ [Op.add "Dune" "Herbert" "" 2, Op.borrowOp 1 0 0,
             Op.borrowOp 2 0 1], goodOp op = true) ∧
    ∀ b ∈ (runOps DB.empty [Op.add "Dune" "Herbert" "" 2, Op.borrowOp 1 0 0,
             Op.borrowOp 2 0 1]).books, 0 ≤ b.quantity :=
  ⟨by decide, quantity_nonneg _ (by decide)⟩

/-!
## C9 — where the fatal crash really is

Referential integrity — every borrow row's book exists — is preserved by
every request, because `delete_book` fails with `IntegrityError` whenever a
borrow row references the book.  So the `None`-dereference branch of
`return_book` is unreachable through the app's own routes; the fatal crash
under normal operation is `delete_book` itself.
-/

/-- Referential integrity: every borrow row references an existing book. -/
def refInt (db : DB) : Prop :=
  ∀ r ∈ db.borrows, ∃ b ∈ db.books, b.id = r.book_id

theorem refInt_updateWhere (bid : Nat) (g : Book → Book)
    (hg : ∀ x, (g x).id = x.id) (l : List Book) (k : Nat)
    (h : ∃ b ∈ l, b.id = k) :
    ∃ b ∈ updateWhere Book.id bid g l, b.id = k := by
  obtain ⟨b, hb, hid⟩ := h
  refine ⟨_, List.mem_map.mpr ⟨b, hb, rfl⟩, ?_⟩
  show (if (Book.id b == bid) = true then g b else b).id = k
  by_cases hk : (Book.id b == bid) = true
  · rw [if_pos hk, hg]
    exact hid
  · rw [if_neg hk]
    exact hid

theorem refInt_step (db : DB) (op : Op) (h : refInt db) :
    refInt (applyOp db op) := by
  cases op with
  | add t a i q =>
    simp only [applyOp]
    cases hadd : add_book t a i q db with
    | conflict d =>
      show refInt d
      rw [add_book_conflict_db t a i q db d hadd]
      exact h
    | added d =>
      show refInt d
      rw [add_book_added_db t a i q db d hadd]
      intro r hr
      obtain ⟨b, hb, hid⟩ := h r hr
      exact ⟨b, List.mem_append_left _ hb, hid⟩
  | edit bid t a i q =>
    simp only [applyOp]
    cases hedit : edit_book bid t a i q db with
    | notFound => exact h
    | edited d =>
      show refInt d
      rw [edit_book_edited_db bid t a i q db d hedit]
      intro r hr
      exact refInt_updateWhere bid
        (fun b => { b with title := t, author := a, isbn := i,
                           quantity := q, available := decide (q > 0) })
        (fun _ => rfl) db.books r.book_id (h r hr)
  | del bid =>
    simp only [applyOp]
    cases hdel : delete_book bid db with
    | notFound => exact h
    | integrityError => exact h
    | deleted d =>
      show refInt d
      obtain ⟨hguard, hd⟩ := delete_book_deleted_db bid db d hdel
      rw [hd]
      intro r hr
      obtain ⟨b, hb, hid⟩ := h r hr
      have hrb : ¬ (r.book_id == bid) = true := by
        intro hx
        have : db.borrows.any (fun x => x.book_id == bid) = true :=
          List.any_eq_true.mpr ⟨r, hr, hx⟩
        rw [this] at hguard
        cases hguard
      have hbid : (b.id != bid) = true := by
        rw [hid]
        simpa [bne] using hrb
      exact ⟨b, List.mem_filter.mpr ⟨hb, hbid⟩, hid⟩
  | borrowOp uid bid n =>
    simp only [applyOp]
    cases hbor : borrow uid bid n db with
    | notFound => exact h
    | unavailable d =>
      show refInt d
      rw [borrow_unavailable_db uid bid n db d hbor]
      exact h
    | borrowed d =>
      show refInt d
      obtain ⟨b, hfind, hq, hd⟩ := borrow_borrowed_db uid bid n db d hbor
      subst hd
      intro r hr
      rw [show (borrowPost uid bid n db).borrows
          = db.borrows ++ [{ id := db.nextBorrowId, user_id := uid,
                             book_id := bid, borrowed_at := n,
                             returned_at := none }] from rfl] at hr
      rw [List.mem_append] at hr
      have hfind' : db.books.find? (fun x => x.id == bid) = some b := hfind
      have hb_mem : b ∈ db.books := List.mem_of_find?_eq_some hfind'
      have hb_id : b.id = bid := by
        simpa using find?_pred (fun x => x.id == bid) db.books b hfind'
      cases hr with
      | inl hr =>
        exact refInt_updateWhere bid borrowG (fun _ => rfl) db.books
          r.book_id (h r hr)
      | inr hr =>
        rw [List.mem_singleton] at hr
        subst hr
        exact refInt_updateWhere bid borrowG (fun _ => rfl) db.books
          bid ⟨b, hb_mem, hb_id⟩
  | returnOp rid n =>
    simp only [applyOp]
    cases hret : return_book rid n db with
    | notFound => exact h
    | crash => exact h
    | alreadyReturned d =>
      show refInt d
      rw [return_already_db rid n db d hret]
      exact h
    | returned d =>
      show refInt d
      obtain ⟨r0, b, hfr, hrn, hfb, hd⟩ := return_returned_db rid n db d hret
      subst hd
      intro r hr
      obtain ⟨r1, hr1, hxy⟩ := List.mem_map.mp hr
      have hbk : r.book_id = r1.book_id := by
        by_cases hk : (Borrow.id r1 == rid) = true
        · rw [if_pos hk] at hxy
          subst hxy
          rfl
        · rw [if_neg hk] at hxy
          subst hxy
          rfl
      rw [hbk]
      exact refInt_updateWhere r0.book_id
        (fun bb => { bb with quantity := bb.quantity + 1, available := true })
        (fun _ => rfl) db.books r1.book_id (h r1 hr1)

theorem refInt_empty : refInt DB.empty := by
  intro r hr
  simp [DB.empty] at hr

theorem refInt_runOps_of (db : DB) (ops : List Op) (hdb : refInt db) :
    refInt (runOps db ops) := by
  induction ops generalizing db with
  | nil => exact hdb
  | cons op rest ih =>
    rw [runOps]
    exact ih (applyOp db op) (refInt_step db op hdb)

theorem refInt_runOps (ops : List Op) : refInt (runOps DB.empty ops) :=
  refInt_runOps_of DB.empty ops refInt_empty

/-- Through the app's own routes the `None`-dereference branch of
`return_book` never fires: a book with borrow history cannot be deleted
(the delete raises `IntegrityError` instead), so every borrow row's book
still exists when the row is returned. -/
theorem return_book_no_crash (rid now : Nat) (ops : List Op) :
    return_book rid now (runOps DB.empty ops) ≠ ReturnResult.crash := by
  intro hcrash
  obtain ⟨r, hf, hrn, hb⟩ := (return_book_crash_iff rid now _).mp hcrash
  have hf' : (runOps DB.empty ops).borrows.find? (fun x => x.id == rid)
      = some r := hf
  have hmem : r ∈ (runOps DB.empty ops).borrows :=
    List.mem_of_find?_eq_some hf'
  obtain ⟨b, hbmem, hid⟩ := refInt_runOps ops r hmem
  have hnone : (runOps DB.empty ops).books.find?
      (fun x => x.id == r.book_id) = none := hb
  exact absurd (by simp [hid]) (List.find?_eq_none.mp hnone b hbmem)

/-- C9 fails on the code: deleting a book that has ever been borrowed is
normal operation (the route exposes it), yet the ORM's disassociation
update trips the NOT NULL constraint on `borrow.book_id` and the request
dies with an unhandled `IntegrityError` — a fatal 500, not a recovered
redirect.  The claim's specifically named scenario cannot even arise: per
`return_book_no_crash`, a borrow row's book can never have been deleted. -/
theorem delete_book_crashes_on_borrowed_book :
    delete_book 0 (runOps DB.empty
      [Op.add "Dune" "Herbert" "" 1, Op.borrowOp 1 0 3])
      = DeleteResult.integrityError := by
  rfl
